import Mathlib

/-!
Verification of the entery-discord-bot repository (src/bot.py, src/twitch_auth.py)
against its natural-language specification.

The Python code is shallowly embedded: every network/IO interaction is a
parameter of the embedded function (the response the external service would
give, or a flag saying the call raised), and every observable effect (calls to
`set_user_authentication`, calls to `save_tokens`, Discord role additions and
removals) is returned as explicit data.  Timestamps are integers (seconds).
-/

namespace EnteryBot

/-! ## Embedding of src/twitch_auth.py (class TwitchAuthManager) -/

/-- The persisted token record written by `save_tokens` and read by
`load_tokens`: `{access_token, refresh_token, expires_at}`. -/
structure Tokens where
  access_token : String
  refresh_token : String
  expires_at : Int
deriving DecidableEq, Repr

/-- The expiry test performed inside `load_tokens`:
`expires_at <= datetime.now()`. -/
def isExpired (t : Tokens) (now : Int) : Bool :=
  t.expires_at ≤ now

/-- Observable effects of the auth manager: how many times
`twitch.set_user_authentication` was called, and how many times
`save_tokens` (the persistence write) was called. -/
structure AuthEffects where
  authCalls : Nat
  saves : Nat
deriving DecidableEq, Repr

/-- Embeds `TwitchAuthManager.load_tokens`.  `file` is the content of
`twitch_tokens.json` (`none` when the file is absent or unreadable),
`now` is `datetime.now()`.  Returns the boolean result together with the
`self.tokens` field afterwards: the record is loaded into `self.tokens`
before the expiry check, so even an expired record is retained. -/
def load_tokens (file : Option Tokens) (now : Int) : Bool × Option Tokens :=
  match file with
  | none => (false, none)
  | some t => if isExpired t now then (false, some t) else (true, some t)

/-- Embeds `TwitchAuthManager.save_tokens`: builds the persisted record with
`expires_at = datetime.now() + timedelta(hours=3)`. -/
def save_tokens (now : Int) (access refresh : String) : Tokens :=
  { access_token := access, refresh_token := refresh, expires_at := now + 3 * 3600 }

/-- Outcome of a `twitch.set_user_authentication` call: it can succeed, raise
a `TwitchAPIException` (the only class `refresh_auth`'s handler catches), or
raise any other exception (which propagates out of `refresh_auth`). -/
inductive AuthCallOutcome where
  | success
  | twitchError (msg : String)
  | otherError (msg : String)
deriving DecidableEq, Repr

/-- Embeds `TwitchAuthManager.refresh_auth`.  `tokens` is `self.tokens`;
`outcome` is what the single `set_user_authentication` call does.  The
result is `Except.ok` of the returned boolean, or `Except.error` when a
non-`TwitchAPIException` propagates past the narrow `except TwitchAPIException`
handler; the effects record the call count either way.  Note the body: it
never consults `expires_at` and never calls `save_tokens`; with tokens
present it always makes exactly one `set_user_authentication` call. -/
def refresh_auth (tokens : Option Tokens) (outcome : AuthCallOutcome) :
    Except String Bool × AuthEffects :=
  match tokens with
  | none => (Except.ok false, { authCalls := 0, saves := 0 })
  | some _ =>
    match outcome with
    | AuthCallOutcome.success => (Except.ok true, { authCalls := 1, saves := 0 })
    | AuthCallOutcome.twitchError _ => (Except.ok false, { authCalls := 1, saves := 0 })
    | AuthCallOutcome.otherError msg => (Except.error msg, { authCalls := 1, saves := 0 })

/-- The Twitch client object as the bot observes it: only its
`has_user_auth` attribute matters to the code under verification. -/
structure TwitchHandle where
  hasUserAuth : Bool
deriving DecidableEq, Repr

/-- Embeds `TwitchAuthManager.initialize`.  `constructRaises` says whether
`Twitch(client_id, client_secret)` raises; otherwise the method loads tokens
and, only when `load_tokens` returned `True` (present and unexpired), calls
`refresh_auth`.  An exception propagating out of `refresh_auth` (a
non-`TwitchAPIException` from `set_user_authentication`) is caught by the
outer `except Exception`, which returns `None` — as does a construction
failure.  In every other case it returns `self.twitch`, whose
`has_user_auth` is `true` exactly when a `set_user_authentication` call
succeeded. -/
def auth_init (constructRaises : Bool) (file : Option Tokens) (now : Int)
    (outcome : AuthCallOutcome) : Option TwitchHandle × AuthEffects :=
  if constructRaises then (none, { authCalls := 0, saves := 0 })
  else
    match load_tokens file now with
    | (true, toks) =>
      match refresh_auth toks outcome with
      | (Except.ok res, eff) => (some { hasUserAuth := res }, eff)
      | (Except.error _, eff) => (none, eff)
    | (false, _) => (some { hasUserAuth := false }, { authCalls := 0, saves := 0 })

/-! ## Embedding of src/bot.py -/

/-- The value produced by iterating an external Twitch API list call
(`twitch.get_vips` / `twitch.get_broadcaster_subscriptions`):
- `ok logins`: a list of records, every one of which yields its `user_login`;
- `okThenRaises logins msg`: a list of records whose iteration yields the
  given `user_login` values and then raises (e.g. a malformed item) — the
  inner `except` catches this after the prefix was already appended;
- `nonList`: a value failing the `isinstance(..., list)` guard;
- `raises msg`: the API call itself raises, before anything is appended. -/
inductive ApiResult where
  | ok (logins : List String)
  | okThenRaises (logins : List String) (msg : String)
  | nonList
  | raises (msg : String)
deriving DecidableEq, Repr

/-- Embeds `get_vips`.  `tw` is the global `twitch` (`none` when the client
is absent; its `hasUserAuth` covers both the `hasattr` and the
`has_user_auth` checks).  `resp` is what iterating `twitch.get_vips(...)`
produces.  With the client absent, user auth missing, a non-list response,
or the call itself raising, the function returns `[]`; on success the
collected logins are lower-cased one by one; on a mid-iteration exception
the inner handler catches it and the partially built — possibly non-empty —
list is returned. -/
def get_vips (tw : Option TwitchHandle) (resp : ApiResult) : List String :=
  match tw with
  | none => []
  | some t =>
    if !t.hasUserAuth then []
    else
      match resp with
      | ApiResult.ok logins => logins.map String.toLower
      | ApiResult.okThenRaises logins _ => logins.map String.toLower
      | ApiResult.nonList => []
      | ApiResult.raises _ => []

/-- Embeds `get_subscribers`; the body is the same shape as `get_vips`
with `twitch.get_broadcaster_subscriptions` in place of `twitch.get_vips`,
including the truncated-list behaviour on a mid-iteration exception. -/
def get_subscribers (tw : Option TwitchHandle) (resp : ApiResult) : List String :=
  match tw with
  | none => []
  | some t =>
    if !t.hasUserAuth then []
    else
      match resp with
      | ApiResult.ok logins => logins.map String.toLower
      | ApiResult.okThenRaises logins _ => logins.map String.toLower
      | ApiResult.nonList => []
      | ApiResult.raises _ => []

/-- A Discord guild member as the sync loop observes it: whether the VIP
role and the subscriber role are in `member.roles`. -/
structure Member where
  hasVip : Bool
  hasSub : Bool
deriving DecidableEq, Repr

/-- One role mutation performed by the sync loop
(`member.add_roles` / `member.remove_roles`, tagged by the Discord id). -/
inductive RoleChange where
  | addVip (discord_id : String)
  | removeVip (discord_id : String)
  | addSub (discord_id : String)
  | removeSub (discord_id : String)
deriving DecidableEq, Repr

/-- The Discord id a role mutation acts on. -/
def RoleChange.target : RoleChange → String
  | addVip d => d
  | removeVip d => d
  | addSub d => d
  | removeSub d => d

/-- The VIP block of the sync loop body, for one member:
`is_vip = twitch_username.lower() in vips`, `has_vip = vip_role in
member.roles`; add the role when `is_vip and not has_vip`, remove it when
`not is_vip and has_vip`. -/
def vipStep (vips : List String) (did uname : String) (m : Member) :
    Member × List RoleChange :=
  if decide (uname.toLower ∈ vips) && !m.hasVip then
    ({ m with hasVip := true }, [RoleChange.addVip did])
  else if !decide (uname.toLower ∈ vips) && m.hasVip then
    ({ m with hasVip := false }, [RoleChange.removeVip did])
  else (m, [])

/-- The subscriber block of the sync loop body (guarded by `if sub_role:`
in the source), same XOR shape as `vipStep`. -/
def subStep (subs : List String) (did uname : String) (m : Member) :
    Member × List RoleChange :=
  if decide (uname.toLower ∈ subs) && !m.hasSub then
    ({ m with hasSub := true }, [RoleChange.addSub did])
  else if !decide (uname.toLower ∈ subs) && m.hasSub then
    ({ m with hasSub := false }, [RoleChange.removeSub did])
  else (m, [])

/-- The whole per-member body of the sync loop: the VIP block, then — when a
subscriber role is configured (`sub_role` is set) — the subscriber block. -/
def syncMember (vips subs : List String) (subCfg : Bool) (did uname : String)
    (m : Member) : Member × List RoleChange :=
  if subCfg then
    ((subStep subs did uname (vipStep vips did uname m).1).1,
      (vipStep vips did uname m).2 ++
        (subStep subs did uname (vipStep vips did uname m).1).2)
  else vipStep vips did uname m

/-- Embeds the `for discord_id, twitch_username in verified_users.items():`
loop of `sync_roles_task`.  `users` is the identity map in iteration order;
`members` maps a Discord id to its guild member (`none` when
`guild.fetch_member` raises or returns a falsy value — the per-identity
failure path, which skips that identity).  Returns the guild state after the
loop together with the list of role mutations performed, in order. -/
def sync_cycle (vips subs : List String) (subCfg : Bool) :
    List (String × String) → (String → Option Member) →
      (String → Option Member) × List RoleChange
  | [], members => (members, [])
  | (did, uname) :: rest, members =>
    match members did with
    | none => sync_cycle vips subs subCfg rest members
    | some m =>
      let r := syncMember vips subs subCfg did uname m
      let res := sync_cycle vips subs subCfg rest
        (fun x => if x = did then some r.1 else members x)
      (res.1, r.2 ++ res.2)

/-- The value the `sync_roles_task` coroutine returns to its caller: every
path of the function body either falls off the end or executes a bare
`return`, so the caller always receives `None`; in particular no count of
mutations is ever returned.  Typed `Option Nat` (either a count or `None`). -/
def sync_roles_task_return : Option Nat := none

/-- Python `dict` assignment `d[k] = v` on an association list that carries
the dict entries in insertion order: overwrite in place when the key exists,
append otherwise. -/
def dictSet : List (String × String) → String → String → List (String × String)
  | [], k, v => [(k, v)]
  | (k1, v1) :: rest, k, v =>
    if k1 = k then (k, v) :: rest else (k1, v1) :: dictSet rest k v

/-- Python `dict` lookup `d[k]` (as an `Option`). -/
def dictLookup : List (String × String) → String → Option String
  | [], _ => none
  | (k1, v1) :: rest, k => if k1 = k then some v1 else dictLookup rest k

/-- Embeds the state change of the `link` command (`link_account`):
`verified_users[str(ctx.author.id)] = twitch_username.lower()`. -/
def link_account (users : List (String × String)) (discord_id uname : String) :
    List (String × String) :=
  dictSet users discord_id uname.toLower

/-- The keys of the identity map (the Discord ids). -/
def keys (users : List (String × String)) : List String :=
  users.map Prod.fst

/-- The mutations of a cycle that act on one given Discord id. -/
def changesFor (did : String) (cs : List RoleChange) : List RoleChange :=
  cs.filter fun c => decide (c.target = did)

/-! ## Lemmas about the per-member sync step -/

theorem vipStep_fst_hasVip (v : List String) (d u : String) (m : Member) :
    (vipStep v d u m).1.hasVip = decide (u.toLower ∈ v) := by
  cases h1 : decide (u.toLower ∈ v) <;> cases hm : m.hasVip <;>
    simp [vipStep, h1, hm]

theorem vipStep_fst_hasSub (v : List String) (d u : String) (m : Member) :
    (vipStep v d u m).1.hasSub = m.hasSub := by
  cases h1 : decide (u.toLower ∈ v) <;> cases hm : m.hasVip <;>
    simp [vipStep, h1, hm]

theorem subStep_fst_hasSub (s : List String) (d u : String) (m : Member) :
    (subStep s d u m).1.hasSub = decide (u.toLower ∈ s) := by
  cases h1 : decide (u.toLower ∈ s) <;> cases hm : m.hasSub <;>
    simp [subStep, h1, hm]

theorem subStep_fst_hasVip (s : List String) (d u : String) (m : Member) :
    (subStep s d u m).1.hasVip = m.hasVip := by
  cases h1 : decide (u.toLower ∈ s) <;> cases hm : m.hasSub <;>
    simp [subStep, h1, hm]

theorem vipStep_snd_shape (v : List String) (d u : String) (m : Member) :
    ∀ c ∈ (vipStep v d u m).2,
      c = RoleChange.addVip d ∨ c = RoleChange.removeVip d := by
  cases h1 : decide (u.toLower ∈ v) <;> cases hm : m.hasVip <;>
    simp [vipStep, h1, hm]

theorem subStep_snd_shape (s : List String) (d u : String) (m : Member) :
    ∀ c ∈ (subStep s d u m).2,
      c = RoleChange.addSub d ∨ c = RoleChange.removeSub d := by
  cases h1 : decide (u.toLower ∈ s) <;> cases hm : m.hasSub <;>
    simp [subStep, h1, hm]

theorem vipStep_mem_iff (v : List String) (d u : String) (m : Member) :
    (RoleChange.addVip d ∈ (vipStep v d u m).2 ∨
      RoleChange.removeVip d ∈ (vipStep v d u m).2) ↔
      decide (u.toLower ∈ v) ≠ m.hasVip := by
  cases h1 : decide (u.toLower ∈ v) <;> cases hm : m.hasVip <;>
    simp [vipStep, h1, hm]

theorem subStep_mem_iff (s : List String) (d u : String) (m : Member) :
    (RoleChange.addSub d ∈ (subStep s d u m).2 ∨
      RoleChange.removeSub d ∈ (subStep s d u m).2) ↔
      decide (u.toLower ∈ s) ≠ m.hasSub := by
  cases h1 : decide (u.toLower ∈ s) <;> cases hm : m.hasSub <;>
    simp [subStep, h1, hm]

theorem syncMember_snd (v s : List String) (cfg : Bool) (d u : String)
    (m : Member) :
    (syncMember v s cfg d u m).2 = (vipStep v d u m).2 ++
      (if cfg then (subStep s d u (vipStep v d u m).1).2 else []) := by
  cases cfg <;> simp [syncMember]

theorem syncMember_fst_hasVip (v s : List String) (cfg : Bool) (d u : String)
    (m : Member) :
    (syncMember v s cfg d u m).1.hasVip = decide (u.toLower ∈ v) := by
  cases cfg <;> simp [syncMember, subStep_fst_hasVip, vipStep_fst_hasVip]

theorem syncMember_fst_hasSub (v s : List String) (cfg : Bool) (d u : String)
    (m : Member) :
    (syncMember v s cfg d u m).1.hasSub =
      (if cfg then decide (u.toLower ∈ s) else m.hasSub) := by
  cases cfg <;> simp [syncMember, subStep_fst_hasSub, vipStep_fst_hasSub]

theorem syncMember_snd_target (v s : List String) (cfg : Bool) (d u : String)
    (m : Member) : ∀ c ∈ (syncMember v s cfg d u m).2, c.target = d := by
  intro c hc
  rw [syncMember_snd] at hc
  rcases List.mem_append.1 hc with h | h
  · rcases vipStep_snd_shape v d u m c h with rfl | rfl <;> rfl
  · rcases cfg with _ | _
    · simp at h
    · simp only [if_pos rfl] at h
      rcases subStep_snd_shape s d u _ c h with rfl | rfl <;> rfl

theorem vipStep_noop (v : List String) (d u : String) (m : Member)
    (h : m.hasVip = decide (u.toLower ∈ v)) :
    vipStep v d u m = (m, []) := by
  cases h1 : decide (u.toLower ∈ v) <;> rw [h1] at h <;> simp [vipStep, h1, h]

theorem subStep_noop (s : List String) (d u : String) (m : Member)
    (h : m.hasSub = decide (u.toLower ∈ s)) :
    subStep s d u m = (m, []) := by
  cases h1 : decide (u.toLower ∈ s) <;> rw [h1] at h <;> simp [subStep, h1, h]

theorem syncMember_noop (v s : List String) (cfg : Bool) (d u : String)
    (m : Member) (h1 : m.hasVip = decide (u.toLower ∈ v))
    (h2 : cfg = true → m.hasSub = decide (u.toLower ∈ s)) :
    syncMember v s cfg d u m = (m, []) := by
  cases cfg with
  | false => simpa [syncMember] using vipStep_noop v d u m h1
  | true =>
    simp only [syncMember, if_pos rfl, vipStep_noop v d u m h1,
      subStep_noop s d u m (h2 rfl)]
    simp

theorem syncMember_vip_mem_iff (v s : List String) (cfg : Bool) (d u : String)
    (m : Member) :
    (RoleChange.addVip d ∈ (syncMember v s cfg d u m).2 ∨
      RoleChange.removeVip d ∈ (syncMember v s cfg d u m).2) ↔
      decide (u.toLower ∈ v) ≠ m.hasVip := by
  have hsub : ∀ c ∈ (if cfg then (subStep s d u (vipStep v d u m).1).2 else []),
      c ≠ RoleChange.addVip d ∧ c ≠ RoleChange.removeVip d := by
    intro c hc
    cases cfg with
    | false => simp at hc
    | true =>
      rw [if_pos rfl] at hc
      rcases subStep_snd_shape s d u _ c hc with rfl | rfl <;>
        exact ⟨fun h => RoleChange.noConfusion h, fun h => RoleChange.noConfusion h⟩
  rw [syncMember_snd, ← vipStep_mem_iff v d u m]
  constructor
  · rintro (h | h) <;> rcases List.mem_append.1 h with h1 | h1
    · exact Or.inl h1
    · exact absurd rfl (hsub _ h1).1
    · exact Or.inr h1
    · exact absurd rfl (hsub _ h1).2
  · rintro (h | h)
    · exact Or.inl (List.mem_append.2 (Or.inl h))
    · exact Or.inr (List.mem_append.2 (Or.inl h))

theorem syncMember_sub_mem_iff (v s : List String) (cfg : Bool) (d u : String)
    (m : Member) :
    (RoleChange.addSub d ∈ (syncMember v s cfg d u m).2 ∨
      RoleChange.removeSub d ∈ (syncMember v s cfg d u m).2) ↔
      (cfg = true ∧ decide (u.toLower ∈ s) ≠ m.hasSub) := by
  have hvip : ∀ c ∈ (vipStep v d u m).2,
      c ≠ RoleChange.addSub d ∧ c ≠ RoleChange.removeSub d := by
    intro c hc
    rcases vipStep_snd_shape v d u m c hc with rfl | rfl <;>
      exact ⟨fun h => RoleChange.noConfusion h, fun h => RoleChange.noConfusion h⟩
  rw [syncMember_snd]
  cases cfg with
  | false =>
    rw [if_neg (fun h => Bool.noConfusion h), List.append_nil]
    constructor
    · rintro (h | h)
      · exact absurd rfl (hvip _ h).1
      · exact absurd rfl (hvip _ h).2
    · rintro ⟨h, -⟩
      exact Bool.noConfusion h
  | true =>
    rw [if_pos rfl]
    have hbase := subStep_mem_iff s d u (vipStep v d u m).1
    rw [vipStep_fst_hasSub] at hbase
    constructor
    · rintro (h | h) <;> rcases List.mem_append.1 h with h1 | h1
      · exact absurd rfl (hvip _ h1).1
      · exact ⟨rfl, hbase.1 (Or.inl h1)⟩
      · exact absurd rfl (hvip _ h1).2
      · exact ⟨rfl, hbase.1 (Or.inr h1)⟩
    · rintro ⟨-, h⟩
      rcases hbase.2 h with h1 | h1
      · exact Or.inl (List.mem_append.2 (Or.inr h1))
      · exact Or.inr (List.mem_append.2 (Or.inr h1))

/-! ## Lemmas about the whole reconciliation loop -/

theorem keys_cons (d u : String) (rest : List (String × String)) :
    keys ((d, u) :: rest) = d :: keys rest := rfl

theorem sync_cycle_apply_not_mem (v s : List String) (cfg : Bool)
    (users : List (String × String)) (members : String → Option Member)
    (x : String) (hx : x ∉ keys users) :
    (sync_cycle v s cfg users members).1 x = members x := by
  induction users generalizing members with
  | nil => rfl
  | cons u rest ih =>
    obtain ⟨did, uname⟩ := u
    rw [keys_cons, List.mem_cons, not_or] at hx
    obtain ⟨hxd, hxr⟩ := hx
    cases hm : members did with
    | none =>
      simp only [sync_cycle, hm]
      exact ih members hxr
    | some m =>
      simp only [sync_cycle, hm]
      rw [ih _ hxr]
      simp only [if_neg hxd]

theorem sync_cycle_snd_target (v s : List String) (cfg : Bool)
    (users : List (String × String)) (members : String → Option Member) :
    ∀ c ∈ (sync_cycle v s cfg users members).2, c.target ∈ keys users := by
  induction users generalizing members with
  | nil => intro c hc; simp [sync_cycle] at hc
  | cons u rest ih =>
    obtain ⟨did, uname⟩ := u
    intro c hc
    rw [keys_cons]
    cases hm : members did with
    | none =>
      simp only [sync_cycle, hm] at hc
      exact List.mem_cons_of_mem _ (ih members c hc)
    | some m =>
      simp only [sync_cycle, hm] at hc
      rcases List.mem_append.1 hc with h | h
      · rw [syncMember_snd_target v s cfg did uname m c h]
        exact List.mem_cons_self _ _
      · exact List.mem_cons_of_mem _ (ih _ c h)

theorem sync_cycle_apply_none (v s : List String) (cfg : Bool)
    (users : List (String × String)) (members : String → Option Member)
    (did : String) (hnd : (keys users).Nodup) (hm : members did = none) :
    (sync_cycle v s cfg users members).1 did = none := by
  induction users generalizing members with
  | nil => exact hm
  | cons u rest ih =>
    obtain ⟨d0, u0⟩ := u
    rw [keys_cons] at hnd
    obtain ⟨hd0, hnd1⟩ := List.nodup_cons.1 hnd
    by_cases hdd : d0 = did
    · subst hdd
      cases hm0 : members d0 with
      | none =>
        simp only [sync_cycle, hm0]
        rw [sync_cycle_apply_not_mem v s cfg rest members d0 hd0]
        exact hm0
      | some m => rw [hm] at hm0; cases hm0
    · cases hm0 : members d0 with
      | none => simp only [sync_cycle, hm0]; exact ih _ hnd1 hm
      | some m =>
        simp only [sync_cycle, hm0]
        refine ih _ hnd1 ?_
        simp only [if_neg (fun h : did = d0 => hdd h.symm)]
        exact hm

theorem sync_cycle_localize (v s : List String) (cfg : Bool)
    (users : List (String × String)) (members : String → Option Member)
    (did uname : String) (m : Member)
    (hmem : (did, uname) ∈ users) (hnd : (keys users).Nodup)
    (hm : members did = some m) :
    (sync_cycle v s cfg users members).1 did =
      some (syncMember v s cfg did uname m).1 ∧
    changesFor did (sync_cycle v s cfg users members).2 =
      (syncMember v s cfg did uname m).2 := by
  induction users generalizing members with
  | nil => cases hmem
  | cons u rest ih =>
    obtain ⟨d0, u0⟩ := u
    rw [keys_cons] at hnd
    obtain ⟨hd0, hnd1⟩ := List.nodup_cons.1 hnd
    rcases List.mem_cons.1 hmem with heq | htail
    · rw [Prod.ext_iff] at heq
      obtain ⟨h1, h2⟩ := heq
      dsimp at h1 h2
      subst h1
      subst h2
      simp only [sync_cycle, hm]
      constructor
      · rw [sync_cycle_apply_not_mem v s cfg rest _ did hd0]
        rw [if_pos rfl]
      · unfold changesFor
        rw [List.filter_append]
        have hown : List.filter (fun c => decide (c.target = did))
            (syncMember v s cfg did uname m).2 =
            (syncMember v s cfg did uname m).2 := by
          rw [List.filter_eq_self]
          intro c hc
          exact decide_eq_true (syncMember_snd_target v s cfg did uname m c hc)
        have hrest : List.filter (fun c => decide (c.target = did))
            (sync_cycle v s cfg rest
              (fun x => if x = did then some (syncMember v s cfg did uname m).1
                else members x)).2 = [] := by
          rw [List.filter_eq_nil_iff]
          intro c hc
          have := sync_cycle_snd_target v s cfg rest _ c hc
          simp only [decide_eq_true_eq]
          intro hct
          exact hd0 (hct ▸ this)
        rw [hown, hrest, List.append_nil]
    · have hdid_mem : did ∈ keys rest :=
        List.mem_map_of_mem Prod.fst htail
      have hne : ¬ did = d0 := fun h => hd0 (h ▸ hdid_mem)
      cases hm0 : members d0 with
      | none =>
        simp only [sync_cycle, hm0]
        exact ih members htail hnd1 hm
      | some m0 =>
        simp only [sync_cycle, hm0]
        have hm1 : (fun x => if x = d0 then some ((syncMember v s cfg d0 u0 m0).1)
            else members x) did = some m := by
          simp only [if_neg hne]
          exact hm
        obtain ⟨ih1, ih2⟩ :=
          ih (fun x => if x = d0 then some ((syncMember v s cfg d0 u0 m0).1)
            else members x) htail hnd1 hm1
        refine ⟨ih1, ?_⟩
        unfold changesFor
        rw [List.filter_append]
        have hother : List.filter (fun c => decide (c.target = did))
            (syncMember v s cfg d0 u0 m0).2 = [] := by
          rw [List.filter_eq_nil_iff]
          intro c hc
          rw [syncMember_snd_target v s cfg d0 u0 m0 c hc]
          simp only [decide_eq_true_eq]
          exact fun h => hne h.symm
        rw [hother, List.nil_append]
        exact ih2

/-- The guild state is aligned with the truth sets at every linked identity
that resolves to a member: exactly the situation in which the loop body
performs no mutation anywhere. -/
def Synced (v s : List String) (cfg : Bool) (users : List (String × String))
    (members : String → Option Member) : Prop :=
  ∀ p ∈ users, ∀ m, members p.1 = some m →
    m.hasVip = decide (p.2.toLower ∈ v) ∧
      (cfg = true → m.hasSub = decide (p.2.toLower ∈ s))

theorem sync_cycle_of_synced (v s : List String) (cfg : Bool)
    (users : List (String × String)) (members : String → Option Member)
    (h : Synced v s cfg users members) :
    sync_cycle v s cfg users members = (members, []) := by
  induction users generalizing members with
  | nil => rfl
  | cons u rest ih =>
    obtain ⟨did, uname⟩ := u
    cases hm : members did with
    | none =>
      simp only [sync_cycle, hm]
      exact ih members (fun p hp => h p (List.mem_cons_of_mem _ hp))
    | some m =>
      obtain ⟨h1, h2⟩ := h (did, uname) (List.mem_cons_self _ _) m hm
      have hnoop := syncMember_noop v s cfg did uname m h1 h2
      simp only [sync_cycle, hm, hnoop]
      have hupd : (fun x => if x = did then some m else members x) = members := by
        funext x
        by_cases hx : x = did
        · subst hx; rw [if_pos rfl, hm]
        · rw [if_neg hx]
      rw [hupd, ih members (fun p hp => h p (List.mem_cons_of_mem _ hp))]
      rfl

theorem sync_cycle_synced_after (v s : List String) (cfg : Bool)
    (users : List (String × String)) (members : String → Option Member)
    (hnd : (keys users).Nodup) :
    Synced v s cfg users (sync_cycle v s cfg users members).1 := by
  intro p hp m1 hm1
  obtain ⟨did, uname⟩ := p
  cases hm : members did with
  | none =>
    rw [sync_cycle_apply_none v s cfg users members did hnd hm] at hm1
    cases hm1
  | some m =>
    obtain ⟨h1, -⟩ :=
      sync_cycle_localize v s cfg users members did uname m hp hnd hm
    rw [h1] at hm1
    injection hm1 with hm1
    subst hm1
    refine ⟨syncMember_fst_hasVip v s cfg did uname m, fun hcfg => ?_⟩
    rw [syncMember_fst_hasSub, hcfg, if_pos rfl]

/-- Transfer of membership between a full mutation list and its restriction
to one Discord id. -/
theorem mem_changesFor (did : String) (c : RoleChange) (cs : List RoleChange)
    (hc : c.target = did) : c ∈ cs ↔ c ∈ changesFor did cs := by
  unfold changesFor
  rw [List.mem_filter]
  simp [hc]

theorem decide_ne_bool (P : Prop) [Decidable P] (b : Bool) :
    decide P ≠ b ↔ (P ↔ ¬ b = true) := by
  cases b <;> by_cases h : P <;> simp [h]

/-! ## Computation helpers for concrete inputs

`String.toLower` is defined through the well-founded `String.mapAux`, which
the kernel does not reduce; `String.map_eq` converts it to a `List.map`,
which evaluates. -/

theorem toLower_eq (s : String) : s.toLower = ⟨s.data.map Char.toLower⟩ :=
  String.map_eq Char.toLower s

theorem toLower_data (s : String) : s.toLower.data = s.data.map Char.toLower := by
  rw [toLower_eq]

/-- Python `str.lower()` is idempotent at the character level. -/
theorem char_toLower_toLower (c : Char) : c.toLower.toLower = c.toLower := by
  by_cases h : c.toNat ≥ 65 ∧ c.toNat ≤ 90
  · have hv : (c.toNat + 32).isValidChar := Or.inl (by omega)
    have hval : (Char.ofNat (c.toNat + 32)).toNat = c.toNat + 32 := by
      unfold Char.ofNat
      rw [dif_pos hv]
      rfl
    have h1 : Char.toLower c = Char.ofNat (c.toNat + 32) := by
      unfold Char.toLower
      rw [if_pos h]
    rw [h1]
    unfold Char.toLower
    rw [hval, if_neg (by omega)]
  · have h1 : Char.toLower c = c := by
      unfold Char.toLower
      rw [if_neg h]
    rw [h1, h1]

/-- Python `str.lower()` is idempotent: the canonical form is a fixed point. -/
theorem string_toLower_toLower (s : String) : s.toLower.toLower = s.toLower := by
  apply String.ext
  rw [toLower_data, toLower_data, List.map_map]
  exact List.map_congr_left fun c _ => char_toLower_toLower c

theorem lower_alice : ("alice" : String).toLower = "alice" := by
  rw [toLower_eq]; decide

theorem lower_Alice2 : ("Alice" : String).toLower = "alice" := by
  rw [toLower_eq]; decide

theorem lower_ALICE3 : ("ALICE" : String).toLower = "alice" := by
  rw [toLower_eq]; decide

/-- The example scenario of the spec: identity map `u1 -> alice`. -/
def exUsers : List (String × String) := [("u1", "alice")]

/-- Guild state where `u1` resolves and holds neither role. -/
def exMembers0 : String → Option Member :=
  fun x => if x = "u1" then some { hasVip := false, hasSub := false } else none

/-- Guild state where `u1` resolves and holds the VIP role. -/
def exMembersVip : String → Option Member :=
  fun x => if x = "u1" then some { hasVip := true, hasSub := false } else none

example : (sync_cycle ["alice"] [] false exUsers exMembers0).2 =
    [RoleChange.addVip "u1"] := by
  simp [sync_cycle, syncMember, vipStep, subStep, exUsers, exMembers0, lower_alice]

example : (sync_cycle ["alice"] [] false exUsers
    (sync_cycle ["alice"] [] false exUsers exMembers0).1).2 = [] := by
  simp [sync_cycle, syncMember, vipStep, subStep, exUsers, exMembers0, lower_alice]

example : (sync_cycle [] [] false exUsers exMembersVip).2 =
    [RoleChange.removeVip "u1"] := by
  simp [sync_cycle, syncMember, vipStep, subStep, exUsers, exMembersVip, lower_alice]

/-! ## Lemmas about the identity map (Python dict semantics) -/

theorem dictLookup_dictSet_self (l : List (String × String)) (k v : String) :
    dictLookup (dictSet l k v) k = some v := by
  induction l with
  | nil => simp [dictSet, dictLookup]
  | cons p rest ih =>
    obtain ⟨k1, v1⟩ := p
    by_cases h : k1 = k
    · subst h
      simp [dictSet, dictLookup]
    · simp [dictSet, dictLookup, h, ih]

theorem dictLookup_dictSet_other (l : List (String × String)) (k v x : String)
    (hx : x ≠ k) : dictLookup (dictSet l k v) x = dictLookup l x := by
  have hkx : ¬ k = x := fun h => hx h.symm
  induction l with
  | nil => simp [dictSet, dictLookup, hkx]
  | cons p rest ih =>
    obtain ⟨k1, v1⟩ := p
    by_cases h : k1 = k
    · subst h
      simp [dictSet, dictLookup, hkx]
    · simp [dictSet, dictLookup, h, ih]

theorem keys_dictSet (l : List (String × String)) (k v : String) :
    keys (dictSet l k v) = if k ∈ keys l then keys l else keys l ++ [k] := by
  induction l with
  | nil => simp [dictSet, keys]
  | cons p rest ih =>
    obtain ⟨k1, v1⟩ := p
    by_cases h : k1 = k
    · subst h
      simp [dictSet, keys_cons, List.mem_cons]
    · have hkk : ¬ k = k1 := fun h1 => h h1.symm
      simp only [dictSet, if_neg h, keys_cons, ih, List.mem_cons, hkk, false_or]
      by_cases hk : k ∈ keys rest
      · simp [hk]
      · simp [hk]

theorem keys_dictSet_nodup (l : List (String × String)) (k v : String)
    (h : (keys l).Nodup) : (keys (dictSet l k v)).Nodup := by
  rw [keys_dictSet]
  by_cases hk : k ∈ keys l
  · rw [if_pos hk]
    exact h
  · rw [if_neg hk]
    exact List.nodup_append.2
      ⟨h, List.nodup_singleton k, fun a ha hak => hk ((List.mem_singleton.1 hak) ▸ ha)⟩

/-! ## Claim theorems -/

/-- C1: the claim says a failed VIP truth fetch surfaces an explicit error and
that no role removal is applied that cycle.  The code does the opposite: with
user authentication missing (and `alice` in fact a VIP externally) `get_vips`
returns the plain empty list, and the reconciliation loop, fed that empty
list, removes the VIP role from the linked member `u1` who holds it.  This
theorem evaluates the code at that failing input. -/
theorem c1_fetch_failure_truncates_and_removes :
    get_vips (some { hasUserAuth := false }) (ApiResult.ok ["alice"]) = [] ∧
    (sync_cycle (get_vips (some { hasUserAuth := false }) (ApiResult.ok ["alice"]))
        [] false exUsers exMembersVip).2 = [RoleChange.removeVip "u1"] := by
  refine ⟨rfl, ?_⟩
  simp [get_vips, sync_cycle, syncMember, vipStep, subStep, exUsers, exMembersVip,
    lower_alice]

/-- C2: for a linked identity `(did, uname)` processed without a per-identity
failure (its member resolves), a VIP (resp. subscriber) role change occurs in
the cycle's mutation list iff external membership XOR current role possession
holds, and afterwards the member holds each configured role exactly when the
linked external name is in the corresponding fetched truth set. -/
theorem c2_sync_diff_correct (v s : List String) (cfg : Bool)
    (users : List (String × String)) (members : String → Option Member)
    (did uname : String) (m : Member)
    (hmem : (did, uname) ∈ users) (hnd : (keys users).Nodup)
    (hm : members did = some m) :
    (∃ m1, (sync_cycle v s cfg users members).1 did = some m1 ∧
      (m1.hasVip = true ↔ uname.toLower ∈ v) ∧
      (cfg = true → (m1.hasSub = true ↔ uname.toLower ∈ s))) ∧
    ((RoleChange.addVip did ∈ (sync_cycle v s cfg users members).2 ∨
      RoleChange.removeVip did ∈ (sync_cycle v s cfg users members).2) ↔
      ((uname.toLower ∈ v) ↔ ¬ m.hasVip = true)) ∧
    ((RoleChange.addSub did ∈ (sync_cycle v s cfg users members).2 ∨
      RoleChange.removeSub did ∈ (sync_cycle v s cfg users members).2) ↔
      (cfg = true ∧ ((uname.toLower ∈ s) ↔ ¬ m.hasSub = true))) := by
  obtain ⟨h1, h2⟩ := sync_cycle_localize v s cfg users members did uname m hmem hnd hm
  refine ⟨⟨_, h1, ?_, ?_⟩, ?_, ?_⟩
  · rw [syncMember_fst_hasVip]
    exact decide_eq_true_iff
  · intro hcfg
    rw [syncMember_fst_hasSub, hcfg, if_pos rfl]
    exact decide_eq_true_iff
  · rw [mem_changesFor did (RoleChange.addVip did) _ rfl,
      mem_changesFor did (RoleChange.removeVip did) _ rfl, h2,
      syncMember_vip_mem_iff, decide_ne_bool]
  · rw [mem_changesFor did (RoleChange.addSub did) _ rfl,
      mem_changesFor did (RoleChange.removeSub did) _ rfl, h2,
      syncMember_sub_mem_iff, decide_ne_bool]

theorem c2_sync_diff_correct_witness :
    (("u1", "alice") ∈ exUsers ∧ (keys exUsers).Nodup ∧
      exMembers0 "u1" = some { hasVip := false, hasSub := false }) ∧
    ((∃ m1, (sync_cycle ["alice"] [] false exUsers exMembers0).1 "u1" = some m1 ∧
      (m1.hasVip = true ↔ ("alice" : String).toLower ∈ ["alice"]) ∧
      (false = true →
        (m1.hasSub = true ↔ ("alice" : String).toLower ∈ ([] : List String)))) ∧
    ((RoleChange.addVip "u1" ∈ (sync_cycle ["alice"] [] false exUsers exMembers0).2 ∨
      RoleChange.removeVip "u1" ∈ (sync_cycle ["alice"] [] false exUsers exMembers0).2) ↔
      ((("alice" : String).toLower ∈ ["alice"]) ↔
        ¬ Member.hasVip { hasVip := false, hasSub := false } = true)) ∧
    ((RoleChange.addSub "u1" ∈ (sync_cycle ["alice"] [] false exUsers exMembers0).2 ∨
      RoleChange.removeSub "u1" ∈ (sync_cycle ["alice"] [] false exUsers exMembers0).2) ↔
      (false = true ∧ ((("alice" : String).toLower ∈ ([] : List String)) ↔
        ¬ Member.hasSub { hasVip := false, hasSub := false } = true)))) :=
  ⟨⟨by decide, by decide, by decide⟩,
    c2_sync_diff_correct ["alice"] [] false exUsers exMembers0 "u1" "alice"
      { hasVip := false, hasSub := false } (by decide) (by decide) (by decide)⟩

/-- Idempotence of the loop, shared helper: the state after one run is
`Synced`, and a `Synced` run mutates nothing. -/
theorem sync_cycle_idem (v s : List String) (cfg : Bool)
    (users : List (String × String)) (members : String → Option Member)
    (hnd : (keys users).Nodup) :
    (sync_cycle v s cfg users (sync_cycle v s cfg users members).1).2 = [] := by
  rw [sync_cycle_of_synced v s cfg users _
    (sync_cycle_synced_after v s cfg users members hnd)]

/-- C3: running the reconciliation loop twice in succession — the second run
starting from the guild state the first produced, with the same truth sets
and identity map — performs zero role mutations on the second run. -/
theorem c3_sync_idempotent (v s : List String) (cfg : Bool)
    (users : List (String × String)) (members : String → Option Member)
    (hnd : (keys users).Nodup) :
    (sync_cycle v s cfg users (sync_cycle v s cfg users members).1).2 = [] :=
  sync_cycle_idem v s cfg users members hnd

theorem c3_sync_idempotent_witness :
    (keys exUsers).Nodup ∧
    (sync_cycle ["alice"] [] false exUsers
      (sync_cycle ["alice"] [] false exUsers exMembers0).1).2 = [] :=
  ⟨by decide, c3_sync_idempotent ["alice"] [] false exUsers exMembers0 (by decide)⟩

/-- C4, counterexample: in the spec's example scenario the cycle does add the
VIP role (one mutation is performed), but `sync_roles_task` returns `None`
to its caller on every path — it never reports a mutation count, so it does
not report 1. -/
theorem c4_counterexample :
    (sync_cycle ["alice"] [] false exUsers exMembers0).2 = [RoleChange.addVip "u1"] ∧
    sync_roles_task_return = none ∧ sync_roles_task_return ≠ some 1 := by
  refine ⟨?_, rfl, by decide⟩
  simp [sync_cycle, syncMember, vipStep, subStep, exUsers, exMembers0, lower_alice]

/-- C4, amended: the cycle performs the mutations of the example scenario
(exactly one mutation, the VIP add, on the first run; zero on the second),
but it returns no count — the coroutine's return value is always `None`. -/
theorem c4_amended_counts :
    (sync_cycle ["alice"] [] false exUsers exMembers0).2.length = 1 ∧
    (sync_cycle ["alice"] [] false exUsers exMembers0).2 = [RoleChange.addVip "u1"] ∧
    (sync_cycle ["alice"] [] false exUsers
      (sync_cycle ["alice"] [] false exUsers exMembers0).1).2.length = 0 ∧
    sync_roles_task_return = none := by
  have h1 : (sync_cycle ["alice"] [] false exUsers exMembers0).2 =
      [RoleChange.addVip "u1"] := by
    simp [sync_cycle, syncMember, vipStep, subStep, exUsers, exMembers0, lower_alice]
  have h2 : (sync_cycle ["alice"] [] false exUsers
      (sync_cycle ["alice"] [] false exUsers exMembers0).1).2 = [] :=
    sync_cycle_idem ["alice"] [] false exUsers exMembers0 (by decide)
  exact ⟨by rw [h1]; rfl, h1, by rw [h2]; rfl, rfl⟩

/-- A token record far from expiry ("still fresh"). -/
def freshTokens : Tokens :=
  { access_token := "acc", refresh_token := "ref", expires_at := 2000000 }

/-- A token record already past its `expires_at`. -/
def expiredTokens : Tokens :=
  { access_token := "acc", refresh_token := "ref", expires_at := 0 }

/-- C5, counterexample: with a still-fresh stored credential (at time 1000000,
well before `expires_at`), `refresh_auth` nevertheless performs one
`set_user_authentication` call — the claim requires zero refresh calls for a
fresh credential.  (`refresh_auth` never consults `expires_at` at all.) -/
theorem c5_counterexample :
    isExpired freshTokens 1000000 = false ∧
    (refresh_auth (some freshTokens) AuthCallOutcome.success).2.authCalls = 1 ∧
    (1 : Nat) ≠ 0 := by
  decide

/-- C5, amended: `refresh_auth` ignores the expiry and any safety margin:
whenever a token record is stored it performs exactly one
`set_user_authentication` call — fresh or not, whatever the call's outcome —
and it never persists anything (zero `save_tokens` calls); with no stored
record it performs zero calls and reports failure.  It returns success
exactly when a record is stored and the call succeeds. -/
theorem c5_amended_refresh_auth (tokens : Option Tokens)
    (outcome : AuthCallOutcome) :
    (refresh_auth tokens outcome).2.authCalls =
      (if tokens.isSome then 1 else 0) ∧
    (refresh_auth tokens outcome).2.saves = 0 ∧
    ((refresh_auth tokens outcome).1 = Except.ok true ↔
      (tokens.isSome = true ∧ outcome = AuthCallOutcome.success)) := by
  cases tokens <;> cases outcome <;> simp [refresh_auth]

/-- C6, counterexample: with a persisted but expired credential,
`initialize` performs zero refresh attempts (the claim requires exactly one)
and returns the `Twitch` handle without user authentication — a
partially-initialized handle rather than a usable handle or an explicit
failure. -/
theorem c6_counterexample :
    isExpired expiredTokens 5 = true ∧
    auth_init false (some expiredTokens) 5 AuthCallOutcome.success =
      (some { hasUserAuth := false }, { authCalls := 0, saves := 0 }) ∧
    (0 : Nat) ≠ 1 := by
  decide

/-- C6, amended: `initialize` loads the persisted credential; when it is
present and unexpired it makes one `set_user_authentication` call with the
stored pair and returns the handle with user auth on success, the handle
without user auth when the call raises a `TwitchAPIException`, and `None`
when the call raises any other exception (that exception propagates past
`refresh_auth`'s narrow handler to the outer `except`, which returns
`None`); when the credential is missing or expired it attempts no refresh
and returns the handle without user authentication (callers must check
`has_user_auth`); a construction failure also returns `None`. -/
theorem c6_amended_auth_init (file : Option Tokens) (now : Int)
    (outcome : AuthCallOutcome) :
    auth_init true file now outcome =
      (none, { authCalls := 0, saves := 0 }) ∧
    auth_init false none now outcome =
      (some { hasUserAuth := false }, { authCalls := 0, saves := 0 }) ∧
    (∀ t : Tokens, isExpired t now = true →
      auth_init false (some t) now outcome =
        (some { hasUserAuth := false }, { authCalls := 0, saves := 0 })) ∧
    (∀ t : Tokens, isExpired t now = false →
      auth_init false (some t) now AuthCallOutcome.success =
        (some { hasUserAuth := true }, { authCalls := 1, saves := 0 })) ∧
    (∀ (t : Tokens) (msg : String), isExpired t now = false →
      auth_init false (some t) now (AuthCallOutcome.twitchError msg) =
        (some { hasUserAuth := false }, { authCalls := 1, saves := 0 })) ∧
    (∀ (t : Tokens) (msg : String), isExpired t now = false →
      auth_init false (some t) now (AuthCallOutcome.otherError msg) =
        (none, { authCalls := 1, saves := 0 })) := by
  refine ⟨rfl, rfl, fun t ht => ?_, fun t ht => ?_, fun t msg ht => ?_,
    fun t msg ht => ?_⟩ <;>
    simp [auth_init, load_tokens, refresh_auth, ht]

theorem c6_amended_auth_init_witness :
    (isExpired expiredTokens 5 = true ∧
      auth_init false (some expiredTokens) 5 AuthCallOutcome.success =
        (some { hasUserAuth := false }, { authCalls := 0, saves := 0 })) ∧
    (isExpired freshTokens 5 = false ∧
      auth_init false (some freshTokens) 5 AuthCallOutcome.success =
        (some { hasUserAuth := true }, { authCalls := 1, saves := 0 })) ∧
    (isExpired freshTokens 5 = false ∧
      auth_init false (some freshTokens) 5 (AuthCallOutcome.otherError "net") =
        (none, { authCalls := 1, saves := 0 })) :=
  ⟨⟨by decide, (c6_amended_auth_init (some expiredTokens) 5
      AuthCallOutcome.success).2.2.1 expiredTokens (by decide)⟩,
   ⟨by decide, (c6_amended_auth_init (some freshTokens) 5
      AuthCallOutcome.success).2.2.2.1 freshTokens (by decide)⟩,
   ⟨by decide, (c6_amended_auth_init (some freshTokens) 5
      (AuthCallOutcome.otherError "net")).2.2.2.2.2 freshTokens "net" (by decide)⟩⟩

/-- C8: usernames are canonicalized to lower case on both sides.  Whatever
capitalization `s` a link is stored with, `link_account` stores `s.lower()`;
whatever capitalization `t` the same external account is fetched with
(`s.lower() = t.lower()`), the sync loop's membership test against the
fetched (lower-cased) truth set succeeds, so after the per-member step the
member holds the VIP role. -/
theorem c8_username_case_insensitive (users : List (String × String))
    (did s t : String) (logins : List String) (m : Member)
    (hsame : s.toLower = t.toLower) (hmem : t ∈ logins) :
    dictLookup (link_account users did s) did = some s.toLower ∧
    (syncMember (get_vips (some { hasUserAuth := true }) (ApiResult.ok logins))
        [] false did s.toLower m).1.hasVip = true := by
  refine ⟨dictLookup_dictSet_self users did s.toLower, ?_⟩
  rw [syncMember_fst_hasVip]
  refine decide_eq_true ?_
  show s.toLower.toLower ∈ get_vips (some { hasUserAuth := true }) (ApiResult.ok logins)
  rw [string_toLower_toLower, hsame]
  exact List.mem_map_of_mem String.toLower hmem

theorem c8_username_case_insensitive_witness :
    ("Alice" : String).toLower = ("ALICE" : String).toLower ∧
    ("ALICE" : String) ∈ (["ALICE"] : List String) ∧
    (dictLookup (link_account [] "u1" "Alice") "u1" =
        some ("Alice" : String).toLower ∧
      (syncMember (get_vips (some { hasUserAuth := true })
          (ApiResult.ok ["ALICE"])) [] false "u1" ("Alice" : String).toLower
          { hasVip := false, hasSub := false }).1.hasVip = true) :=
  ⟨by rw [lower_Alice2, lower_ALICE3], by decide,
    c8_username_case_insensitive [] "u1" "Alice" "ALICE" ["ALICE"]
      { hasVip := false, hasSub := false }
      (by rw [lower_Alice2, lower_ALICE3]) (by decide)⟩

/-- C9, counterexample: the identity map does NOT keep external names unique
across local ids.  Linking `u1 -> alice` and then `u2 -> alice` leaves both
distinct local ids mapped to the same external name — `link_account` never
removes or overwrites another local id's entry. -/
theorem c9_counterexample :
    link_account (link_account [] "u1" "alice") "u2" "alice" =
      [("u1", "alice"), ("u2", "alice")] ∧ ("u1" : String) ≠ "u2" := by
  refine ⟨?_, by decide⟩
  simp [link_account, dictSet, lower_alice]

/-- C9, amended: the identity map is keyed by local id with one external name
per local id: a link overwrites only that local id's entry (last write wins
per local id), leaves every other local id's entry unchanged, and preserves
key uniqueness.  Distinct local ids may, however, map to the same external
name. -/
theorem c9_amended_link_keyed (users : List (String × String)) (k v : String)
    (hnd : (keys users).Nodup) :
    dictLookup (link_account users k v) k = some v.toLower ∧
    (∀ x, x ≠ k → dictLookup (link_account users k v) x = dictLookup users x) ∧
    (keys (link_account users k v)).Nodup :=
  ⟨dictLookup_dictSet_self users k v.toLower,
   fun x hx => dictLookup_dictSet_other users k v.toLower x hx,
   keys_dictSet_nodup users k v.toLower hnd⟩

theorem c9_amended_link_keyed_witness :
    (keys exUsers).Nodup ∧
    (dictLookup (link_account exUsers "u1" "Alice") "u1" =
        some ("Alice" : String).toLower ∧
      (∀ x, x ≠ "u1" →
        dictLookup (link_account exUsers "u1" "Alice") x = dictLookup exUsers x) ∧
      (keys (link_account exUsers "u1" "Alice")).Nodup) :=
  ⟨by decide, c9_amended_link_keyed exUsers "u1" "Alice" (by decide)⟩

/-- C10, counterexample: not every failure path returns the empty list.
When the API call returns a list whose iteration raises after `alice` was
already appended (e.g. a malformed second item), the inner handler catches
the exception and `get_vips` returns the partially built, non-empty list
`["alice"]` — the caller does not observe "no members". -/
theorem c10_counterexample :
    get_vips (some { hasUserAuth := true })
      (ApiResult.okThenRaises ["alice"] "boom") = ["alice"] ∧
    (["alice"] : List String) ≠ [] := by
  refine ⟨?_, by decide⟩
  simp [get_vips, lower_alice]

/-- C10, amended: `get_vips` and `get_subscribers` never propagate an
exception (the embedding is total); on every failure path that occurs before
any item is collected — Twitch client absent, user authentication missing,
non-list API response, the API call itself raising — they return the empty
list; but an exception raised while iterating the response items is caught
by the inner handler and the partially built, possibly non-empty, list is
returned, so a mid-iteration failure is observed as a truncated member list
rather than as "no members". -/
theorem c10_amended_fetch_outcomes (tw : Option TwitchHandle) (resp : ApiResult) :
    ((tw = none ∨ (∃ t, tw = some t ∧ t.hasUserAuth = false) ∨
      resp = ApiResult.nonList ∨ (∃ msg, resp = ApiResult.raises msg)) →
      get_vips tw resp = [] ∧ get_subscribers tw resp = []) ∧
    (∀ (t : TwitchHandle) (logins : List String) (msg : String),
      tw = some t → t.hasUserAuth = true →
      resp = ApiResult.okThenRaises logins msg →
      get_vips tw resp = logins.map String.toLower ∧
      get_subscribers tw resp = logins.map String.toLower) := by
  constructor
  · intro hfail
    rcases hfail with rfl | ⟨t, rfl, ht⟩ | rfl | ⟨msg, rfl⟩
    · exact ⟨rfl, rfl⟩
    · simp [get_vips, get_subscribers, ht]
    · rcases tw with - | t
      · exact ⟨rfl, rfl⟩
      · cases ht : t.hasUserAuth <;> simp [get_vips, get_subscribers, ht]
    · rcases tw with - | t
      · exact ⟨rfl, rfl⟩
      · cases ht : t.hasUserAuth <;> simp [get_vips, get_subscribers, ht]
  · rintro t logins msg rfl ht rfl
    simp [get_vips, get_subscribers, ht]

theorem c10_amended_fetch_outcomes_witness :
    ((none : Option TwitchHandle) = none ∨
      (∃ t, (none : Option TwitchHandle) = some t ∧ t.hasUserAuth = false) ∨
      ApiResult.ok ["alice"] = ApiResult.nonList ∨
      (∃ msg, ApiResult.ok ["alice"] = ApiResult.raises msg)) ∧
    (get_vips none (ApiResult.ok ["alice"]) = [] ∧
      get_subscribers none (ApiResult.ok ["alice"]) = []) ∧
    (get_vips (some { hasUserAuth := true })
        (ApiResult.okThenRaises ["alice"] "boom") =
        (["alice"] : List String).map String.toLower ∧
      get_subscribers (some { hasUserAuth := true })
        (ApiResult.okThenRaises ["alice"] "boom") =
        (["alice"] : List String).map String.toLower) :=
  ⟨Or.inl rfl,
   (c10_amended_fetch_outcomes none (ApiResult.ok ["alice"])).1 (Or.inl rfl),
   (c10_amended_fetch_outcomes (some { hasUserAuth := true })
      (ApiResult.okThenRaises ["alice"] "boom")).2
     { hasUserAuth := true } ["alice"] "boom" rfl rfl rfl⟩

end EnteryBot
